import Mathlib

/-!
Verification of the spare-parts inventory core (backend/server.js and the
frontend query helper in services/apiService.jsx).

The JavaScript source is shallowly embedded: machine numbers become `Int`
(integer quantities parsed with `parseInt`) and `ℚ` (JS floats used for
costs and the 1.5× threshold, which are exact on the values the code
manipulates), raw spreadsheet cells become an explicit `RVal`/`Option String`
type with `undefined` as a constructor/`none`, fallible parsing returns
`Option`, and `Array.prototype.sort` is modelled as a stable sort driven by
the source comparator (ES2019 requires sort stability).
-/

/-- The four stock levels returned by `getStockLevel` (strings in JS). -/
inductive StockLevel where
  | OUT_OF_STOCK
  | LOW_STOCK
  | MEDIUM_STOCK
  | HIGH_STOCK
deriving DecidableEq, Repr

/-- The JS string value of a stock level, as stored in the record field. -/
def StockLevel.toStr : StockLevel → String
  | .OUT_OF_STOCK => "OUT_OF_STOCK"
  | .LOW_STOCK => "LOW_STOCK"
  | .MEDIUM_STOCK => "MEDIUM_STOCK"
  | .HIGH_STOCK => "HIGH_STOCK"

/-- server.js lines 91–96:
```
function getStockLevel(currentStock, minRequired) {
    if (currentStock === 0) return 'OUT_OF_STOCK';
    if (currentStock <= minRequired) return 'LOW_STOCK';
    if (currentStock <= minRequired * 1.5) return 'MEDIUM_STOCK';
    return 'HIGH_STOCK';
}
```
The arguments are produced by `parseInt(...) || 0`, so they are integers
(possibly negative).  `minRequired * 1.5` is computed in JS float
arithmetic; `1.5 = 3/2` exactly, so on integer inputs the comparison is the
exact rational comparison `currentStock ≤ minRequired * (3/2)`. -/
def getStockLevel (currentStock minRequired : Int) : StockLevel :=
  if currentStock = 0 then .OUT_OF_STOCK
  else if currentStock ≤ minRequired then .LOW_STOCK
  else if (currentStock : ℚ) ≤ (minRequired : ℚ) * (3 / 2) then .MEDIUM_STOCK
  else .HIGH_STOCK

/-- C2: for every `currentStock` and `minRequired`, `getStockLevel` returns
`OUT_OF_STOCK` iff `currentStock = 0` (checked first, regardless of
`minRequired`); otherwise `LOW_STOCK` iff `currentStock ≤ minRequired`;
otherwise `MEDIUM_STOCK` iff `currentStock ≤ 1.5 × minRequired`; otherwise
`HIGH_STOCK`.  The exact boundary cases: `(15, 10)` is `MEDIUM_STOCK`,
`(16, 10)` is `HIGH_STOCK`. -/
theorem getStockLevel_classification :
    (∀ c m : Int, getStockLevel c m = .OUT_OF_STOCK ↔ c = 0) ∧
    (∀ c m : Int, c ≠ 0 →
      (getStockLevel c m = .LOW_STOCK ↔ c ≤ m)) ∧
    (∀ c m : Int, c ≠ 0 → ¬ c ≤ m →
      (getStockLevel c m = .MEDIUM_STOCK ↔ (c : ℚ) ≤ (m : ℚ) * (3 / 2))) ∧
    (∀ c m : Int, c ≠ 0 → ¬ c ≤ m → ¬ ((c : ℚ) ≤ (m : ℚ) * (3 / 2)) →
      getStockLevel c m = .HIGH_STOCK) ∧
    getStockLevel 15 10 = .MEDIUM_STOCK ∧ getStockLevel 16 10 = .HIGH_STOCK := by
  refine ⟨?_, ?_, ?_, ?_, by norm_num [getStockLevel], by norm_num [getStockLevel]⟩
  · intro c m
    unfold getStockLevel
    split_ifs <;> simp_all
  · intro c m hc
    unfold getStockLevel
    split_ifs <;> simp_all
  · intro c m hc hle
    unfold getStockLevel
    split_ifs <;> simp_all
  · intro c m hc hle hq
    unfold getStockLevel
    split_ifs <;> simp_all

/-- Witness for `getStockLevel_classification` at concrete inputs. -/
theorem getStockLevel_classification_witness :
    getStockLevel 0 7 = .OUT_OF_STOCK ∧ getStockLevel 5 7 = .LOW_STOCK ∧
    getStockLevel 9 7 = .MEDIUM_STOCK ∧ getStockLevel 11 7 = .HIGH_STOCK := by
  refine ⟨(getStockLevel_classification.1 0 7).mpr rfl,
    (getStockLevel_classification.2.1 5 7 (by decide)).mpr (by decide),
    (getStockLevel_classification.2.2.1 9 7 (by decide) (by decide)).mpr (by norm_num),
    getStockLevel_classification.2.2.2.1 11 7 (by decide) (by decide) (by norm_num)⟩

/-! ### Raw cells and JS parsing primitives -/

/-- A raw spreadsheet cell as `xlsx.utils.sheet_to_json` delivers it to
`processSparePartsData`: absent (`undefined`), a string, or a number.
JS numbers on the values the program handles (finite decimal cell
contents) are modelled exactly by `ℚ`. -/
inductive RVal where
  | undefined
  | vs (s : String)
  | vn (q : ℚ)
deriving DecidableEq, Repr

/-- Truncation toward zero, the integer JS `parseInt` extracts from the
decimal rendering of a finite number (e.g. `parseInt(-5.7) = -5`). -/
def jsTruncQ (q : ℚ) : Int :=
  if 0 ≤ q then ⌊q⌋ else ⌈q⌉

/-- JS `parseInt(s)` on a string, for the plain decimal forms that occur in
spreadsheet cells: skip leading spaces, optional sign, then the longest
run of decimal digits; no digits means `NaN`, modelled as `none`. -/
def jsParseIntStr (s : String) : Option Int :=
  let cs := s.data.dropWhile (fun c => c = ' ' ∨ c = '\t' ∨ c = '\n' ∨ c = '\r')
  let core : List Char → Option Nat := fun l =>
    let ds := l.takeWhile Char.isDigit
    if ds.isEmpty then none
    else some (ds.foldl (fun a c => a * 10 + (c.toNat - 48)) 0)
  match cs with
  | '-' :: rest => (core rest).map (fun n => -(n : Int))
  | '+' :: rest => (core rest).map (fun n => (n : Int))
  | _ => (core cs).map (fun n => (n : Int))

/-- JS `parseFloat(s)` on a string, for plain decimal forms
(optional sign, digits, optional fractional part); at least one digit is
required, otherwise `NaN` (`none`).  `parseFloat` reads the longest valid
numeric prefix, so trailing garbage is ignored. -/
def jsParseFloatStr (s : String) : Option ℚ :=
  let cs := s.data.dropWhile (fun c => c = ' ' ∨ c = '\t' ∨ c = '\n' ∨ c = '\r')
  let core : List Char → Option ℚ := fun l =>
    let ds := l.takeWhile Char.isDigit
    let rest := l.dropWhile Char.isDigit
    let fs := match rest with
      | '.' :: r => r.takeWhile Char.isDigit
      | _ => []
    if ds.isEmpty ∧ fs.isEmpty then none
    else
      let ip : ℚ := (ds.foldl (fun a c => a * 10 + (c.toNat - 48)) 0 : Nat)
      let fp : ℚ := (fs.foldl (fun a c => a * 10 + (c.toNat - 48)) 0 : Nat)
      some (ip + fp / ((10 : ℚ) ^ fs.length))
  match cs with
  | '-' :: rest => (core rest).map (fun q => -q)
  | '+' :: rest => core rest
  | _ => core cs

/-- `parseInt(cell)`: `undefined → NaN`; a number is rendered to its decimal
string and re-parsed, which truncates toward zero; a string is parsed. -/
def jsParseInt : RVal → Option Int
  | .undefined => none
  | .vn q => some (jsTruncQ q)
  | .vs s => jsParseIntStr s

/-- `parseFloat(cell)`: `undefined → NaN`; a number round-trips exactly
through its string rendering; a string is parsed. -/
def jsParseFloat : RVal → Option ℚ
  | .undefined => none
  | .vn q => some q
  | .vs s => jsParseFloatStr s

/-- JS `x || d` on a number that may be `NaN` (`none`): `NaN` and `0` are
falsy and give `d`; any other number is kept. -/
def jsNumOr (d : Int) : Option Int → Int
  | none => d
  | some n => if n = 0 then d else n

/-- JS `x || d` on a float that may be `NaN` (`none`). -/
def jsNumOrQ (d : ℚ) : Option ℚ → ℚ
  | none => d
  | some q => if q = 0 then d else q

/-- JS `x || d` on a string cell: `undefined` and the empty string are
falsy and give the default `d`. -/
def strOr (o : Option String) (d : String) : String :=
  match o with
  | none => d
  | some s => if s = "" then d else s

/-- JS template interpolation `${x}` of a possibly-absent string:
`undefined` renders as the literal text `"undefined"`. -/
def jsTemplateStr (o : Option String) : String :=
  match o with
  | none => "undefined"
  | some s => s

/-! ### Raw rows and the field normalizer -/

/-- One raw row as read from the sheet: the columns
`processSparePartsData` looks at.  Text columns are `Option String`
(`none` = column absent); numeric columns are raw cells. -/
structure RawRow where
  Equipment_Category : Option String := none
  Part_Name : Option String := none
  Part_Code : Option String := none
  Current_Stock : RVal := .undefined
  Minimum_Required : RVal := .undefined
  Maximum_Threshold : RVal := .undefined
  In_Process : RVal := .undefined
  Unit_Cost : RVal := .undefined
  Supplier : Option String := none
  Last_Updated : Option String := none
  Status : Option String := none
deriving DecidableEq, Repr

/-- The canonical inventory record (server.js lines 72–87). -/
structure Record where
  id : String
  equipmentCategory : String
  partName : String
  partCode : String
  currentStock : Int
  minRequired : Int
  maxThreshold : Int
  inProcess : Int
  unitCost : ℚ
  supplier : String
  lastUpdated : String
  status : String
  stockLevel : StockLevel
  totalValue : ℚ
deriving DecidableEq, Repr

/-- The per-item body of `processSparePartsData` (server.js lines 72–87):
```
id: item.Part_Code || `${item.Equipment_Category}-${Math.random()...}`,
equipmentCategory: item.Equipment_Category || 'UNKNOWN',
partName: item.Part_Name || 'Unknown Part',
partCode: item.Part_Code || 'N/A',
currentStock: parseInt(item.Current_Stock) || 0,
minRequired: parseInt(item.Minimum_Required) || 0,
maxThreshold: parseInt(item.Maximum_Threshold) || 0,
inProcess: parseInt(item.In_Process) || 0,
unitCost: parseFloat(item.Unit_Cost) || 0,
supplier: item.Supplier || 'Unknown',
lastUpdated: item.Last_Updated || new Date().toISOString().split('T')[0],
status: item.Status || 'Active',
stockLevel: getStockLevel(parseInt(item.Current_Stock) || 0,
                          parseInt(item.Minimum_Required) || 0),
totalValue: (parseInt(item.Current_Stock) || 0) * (parseFloat(item.Unit_Cost) || 0)
```
`today` stands for `new Date().toISOString().split('T')[0]` (the load
date, a nonempty ISO date string) and `rand` for the random token
`Math.random().toString(36).substr(2, 9)` drawn for this row. -/
def processItem (item : RawRow) (today rand : String) : Record :=
  { id := strOr item.Part_Code (jsTemplateStr item.Equipment_Category ++ "-" ++ rand)
    equipmentCategory := strOr item.Equipment_Category "UNKNOWN"
    partName := strOr item.Part_Name "Unknown Part"
    partCode := strOr item.Part_Code "N/A"
    currentStock := jsNumOr 0 (jsParseInt item.Current_Stock)
    minRequired := jsNumOr 0 (jsParseInt item.Minimum_Required)
    maxThreshold := jsNumOr 0 (jsParseInt item.Maximum_Threshold)
    inProcess := jsNumOr 0 (jsParseInt item.In_Process)
    unitCost := jsNumOrQ 0 (jsParseFloat item.Unit_Cost)
    supplier := strOr item.Supplier "Unknown"
    lastUpdated := strOr item.Last_Updated today
    status := strOr item.Status "Active"
    stockLevel := getStockLevel (jsNumOr 0 (jsParseInt item.Current_Stock))
      (jsNumOr 0 (jsParseInt item.Minimum_Required))
    totalValue := (jsNumOr 0 (jsParseInt item.Current_Stock) : ℚ) *
      jsNumOrQ 0 (jsParseFloat item.Unit_Cost) }

/-- `processSparePartsData` (server.js lines 71–88): map the normalizer
over the rows in order; `rand i` is the random token drawn for row `i`. -/
def processSparePartsData (rawData : List RawRow) (today : String)
    (rand : Nat → String) : List Record :=
  rawData.mapIdx (fun i item => processItem item today (rand i))

/-! ### Helper lemmas about the JS primitives -/

/-- Keeping a parsed value: `x || 0` is the identity on parsed numbers
(`0` is falsy but the default is also `0`). -/
theorem jsNumOr_zero_some (n : Int) : jsNumOr 0 (some n) = n := by
  rcases eq_or_ne n 0 with h | h <;> simp [jsNumOr, h]

theorem jsNumOrQ_zero_some (q : ℚ) : jsNumOrQ 0 (some q) = q := by
  rcases eq_or_ne q 0 with h | h <;> simp [jsNumOrQ, h]

/-- `parseInt` of an integer-valued numeric cell is that integer. -/
theorem jsParseInt_vn_intCast (n : Int) : jsParseInt (.vn (n : ℚ)) = some n := by
  simp [jsParseInt, jsTruncQ]

/-- `parseFloat` of a numeric cell is the number itself. -/
theorem jsParseFloat_vn (q : ℚ) : jsParseFloat (.vn q) = some q := rfl

/-- A defaulted string field is never empty when the default is nonempty. -/
theorem strOr_ne_empty (o : Option String) (d : String) (hd : d ≠ "") :
    strOr o d ≠ "" := by
  cases o with
  | none => exact hd
  | some s =>
    simp only [strOr]
    split_ifs with h <;> simp_all

/-- Re-defaulting an already-defaulted string field changes nothing
(for any second default) as long as the first default is nonempty. -/
theorem strOr_strOr (o : Option String) (d d' : String) (hd : d ≠ "") :
    strOr (some (strOr o d)) d' = strOr o d := by
  cases o with
  | none => simp [strOr, hd]
  | some s =>
    simp only [strOr]
    split_ifs with h <;> simp_all

/-- The empty raw row: every column absent. -/
def emptyRawRow : RawRow := {}

/-- C6: normalizing a raw row in which every field is absent yields the
fully-defaulted record: `equipmentCategory = "UNKNOWN"`,
`partName = "Unknown Part"`, `partCode = "N/A"`, `supplier = "Unknown"`,
`status = "Active"`, all numeric fields `0`,
`stockLevel = OUT_OF_STOCK`, `totalValue = 0`; `lastUpdated` falls back to
the load date and the synthetic id renders the absent category as
`"undefined"`.  Normalization is total by construction (`processItem` is a
total Lean function), so it never raises an error. -/
theorem processItem_empty_row (today rand : String) :
    processItem emptyRawRow today rand =
      { id := "undefined" ++ "-" ++ rand
        equipmentCategory := "UNKNOWN"
        partName := "Unknown Part"
        partCode := "N/A"
        currentStock := 0
        minRequired := 0
        maxThreshold := 0
        inProcess := 0
        unitCost := 0
        supplier := "Unknown"
        lastUpdated := today
        status := "Active"
        stockLevel := .OUT_OF_STOCK
        totalValue := 0 } := by
  simp [processItem, emptyRawRow, strOr, jsTemplateStr, jsNumOr, jsNumOrQ,
    jsParseInt, jsParseFloat, getStockLevel, Record.mk.injEq]

/-- C3 counterexample: a raw row whose `Current_Stock` cell holds the
string `"-5"` normalizes to `currentStock = -5`, which is negative: the
claimed invariant `currentStock ≥ 0` fails on the code. -/
theorem processItem_negative_cell :
    (processItem { Current_Stock := RVal.vs "-5" } "2024-01-01" "r0").currentStock = -5 ∧
    ¬ 0 ≤ (processItem { Current_Stock := RVal.vs "-5" } "2024-01-01" "r0").currentStock := by
  constructor <;> decide

/-- C3 amended: the normalizer guarantees nonnegative numeric fields only
when every numeric cell either fails to parse (defaulting to `0`) or
parses to a nonnegative value; a negative parsed value such as `"-5"`
passes through unchanged. -/
theorem processItem_nonneg_of_parse_nonneg (item : RawRow) (today rand : String)
    (hc : ∀ n, jsParseInt item.Current_Stock = some n → 0 ≤ n)
    (hm : ∀ n, jsParseInt item.Minimum_Required = some n → 0 ≤ n)
    (hx : ∀ n, jsParseInt item.Maximum_Threshold = some n → 0 ≤ n)
    (hp : ∀ n, jsParseInt item.In_Process = some n → 0 ≤ n)
    (hu : ∀ q, jsParseFloat item.Unit_Cost = some q → 0 ≤ q) :
    0 ≤ (processItem item today rand).currentStock ∧
    0 ≤ (processItem item today rand).minRequired ∧
    0 ≤ (processItem item today rand).maxThreshold ∧
    0 ≤ (processItem item today rand).inProcess ∧
    0 ≤ (processItem item today rand).unitCost := by
  have key : ∀ (o : Option Int), (∀ n, o = some n → 0 ≤ n) → 0 ≤ jsNumOr 0 o := by
    intro o h
    cases o with
    | none => simp [jsNumOr]
    | some n =>
      rw [jsNumOr_zero_some]
      exact h n rfl
  have keyQ : ∀ (o : Option ℚ), (∀ q, o = some q → 0 ≤ q) → 0 ≤ jsNumOrQ 0 o := by
    intro o h
    cases o with
    | none => simp [jsNumOrQ]
    | some q =>
      rw [jsNumOrQ_zero_some]
      exact h q rfl
  exact ⟨key _ hc, key _ hm, key _ hx, key _ hp, keyQ _ hu⟩

/-- Witness for `processItem_nonneg_of_parse_nonneg` on the empty row. -/
theorem processItem_nonneg_witness :
    0 ≤ (processItem emptyRawRow "2024-01-01" "r0").currentStock ∧
    0 ≤ (processItem emptyRawRow "2024-01-01" "r0").minRequired ∧
    0 ≤ (processItem emptyRawRow "2024-01-01" "r0").maxThreshold ∧
    0 ≤ (processItem emptyRawRow "2024-01-01" "r0").inProcess ∧
    0 ≤ (processItem emptyRawRow "2024-01-01" "r0").unitCost :=
  processItem_nonneg_of_parse_nonneg emptyRawRow "2024-01-01" "r0"
    (fun n h => by simp [emptyRawRow, jsParseInt] at h)
    (fun n h => by simp [emptyRawRow, jsParseInt] at h)
    (fun n h => by simp [emptyRawRow, jsParseInt] at h)
    (fun n h => by simp [emptyRawRow, jsParseInt] at h)
    (fun q h => by simp [emptyRawRow, jsParseFloat] at h)

/-- Feeding a canonical record's own field names back in as a raw row:
each raw column is the canonical field the normalizer reads it from
(string fields as cells, numeric fields as numeric cells). -/
def recordToRaw (rec : Record) : RawRow :=
  { Equipment_Category := some rec.equipmentCategory
    Part_Name := some rec.partName
    Part_Code := some rec.partCode
    Current_Stock := .vn (rec.currentStock : ℚ)
    Minimum_Required := .vn (rec.minRequired : ℚ)
    Maximum_Threshold := .vn (rec.maxThreshold : ℚ)
    In_Process := .vn (rec.inProcess : ℚ)
    Unit_Cost := .vn rec.unitCost
    Supplier := some rec.supplier
    Last_Updated := some rec.lastUpdated
    Status := some rec.status }

/-- A present, nonempty cell wins over the default. -/
theorem strOr_some_of_ne (s d : String) (h : s ≠ "") : strOr (some s) d = s := by
  simp [strOr, h]

/-- C4: normalization is idempotent up to synthetic ids.  Re-normalizing
the canonical record produced from any raw row (with any later load date
and any fresh random token) reproduces it field for field, except
possibly the `id` field; and whenever the original `id` was the natural
key — the row's `Part_Code` was present and nonempty — the `id` too is
reproduced, so only a synthetic `id` can differ.  The load date `today`
is the nonempty ISO date string
`new Date().toISOString().split('T')[0]`. -/
theorem processItem_renormalize (r : RawRow) (today today' rand rand' : String)
    (h : today ≠ "") :
    ({ processItem (recordToRaw (processItem r today rand)) today' rand' with
        id := (processItem r today rand).id } = processItem r today rand) ∧
    (∀ s, r.Part_Code = some s → s ≠ "" →
      (processItem (recordToRaw (processItem r today rand)) today' rand').id =
        (processItem r today rand).id) := by
  have hU : ("UNKNOWN" : String) ≠ "" := by decide
  have hP : ("Unknown Part" : String) ≠ "" := by decide
  have hN : ("N/A" : String) ≠ "" := by decide
  have hS : ("Unknown" : String) ≠ "" := by decide
  have hA : ("Active" : String) ≠ "" := by decide
  constructor
  · simp only [processItem, recordToRaw, jsParseInt_vn_intCast, jsParseFloat_vn,
      jsNumOr_zero_some, jsNumOrQ_zero_some,
      strOr_strOr _ _ _ hU, strOr_strOr _ _ _ hP, strOr_strOr _ _ _ hN,
      strOr_strOr _ _ _ hS, strOr_strOr _ _ _ hA, strOr_strOr _ _ _ h]
  · intro s hs hne
    simp only [processItem, recordToRaw, hs, strOr_some_of_ne _ _ hne]

/-- A raw row whose part code is present and nonempty, so its id is the
natural key. -/
def rawNatural : RawRow := { Part_Code := some "A1", Current_Stock := .vn 5 }

/-- Witness for `processItem_renormalize` on a row with a natural
part-code id: every field is reproduced, the id included. -/
theorem processItem_renormalize_witness :
    ("2024-01-01" : String) ≠ "" ∧
    ({ processItem (recordToRaw (processItem rawNatural "2024-01-01" "tok1"))
        "2024-02-02" "tok2" with
        id := (processItem rawNatural "2024-01-01" "tok1").id } =
      processItem rawNatural "2024-01-01" "tok1") ∧
    rawNatural.Part_Code = some "A1" ∧ ("A1" : String) ≠ "" ∧
    (processItem (recordToRaw (processItem rawNatural "2024-01-01" "tok1"))
        "2024-02-02" "tok2").id =
      (processItem rawNatural "2024-01-01" "tok1").id := by
  have h := processItem_renormalize rawNatural "2024-01-01" "2024-02-02" "tok1" "tok2"
    (by decide)
  exact ⟨by decide, h.1, rfl, by decide, h.2 "A1" rfl (by decide)⟩

/-! ### Query engine (GET /api/spare-parts, server.js lines 115–181) -/

/-- A JS value read off a record by dynamic field access `a[sortField]`:
a string, a number, or `undefined` when the field name does not exist on
the record. -/
inductive SortVal where
  | vstr (s : String)
  | vnum (q : ℚ)
  | vundefined
deriving DecidableEq, Repr

/-- Dynamic field access `r[f]` on a canonical record: the fourteen
fields that exist on the object, anything else is `undefined`.
Integer quantities and the rational cost/value are both JS numbers. -/
def getField (r : Record) (f : String) : SortVal :=
  if f = "id" then .vstr r.id
  else if f = "equipmentCategory" then .vstr r.equipmentCategory
  else if f = "partName" then .vstr r.partName
  else if f = "partCode" then .vstr r.partCode
  else if f = "currentStock" then .vnum r.currentStock
  else if f = "minRequired" then .vnum r.minRequired
  else if f = "maxThreshold" then .vnum r.maxThreshold
  else if f = "inProcess" then .vnum r.inProcess
  else if f = "unitCost" then .vnum r.unitCost
  else if f = "supplier" then .vstr r.supplier
  else if f = "lastUpdated" then .vstr r.lastUpdated
  else if f = "status" then .vstr r.status
  else if f = "stockLevel" then .vstr r.stockLevel.toStr
  else if f = "totalValue" then .vnum r.totalValue
  else .vundefined

/-- The names of the fields that exist on a canonical record. -/
def knownFields : List String :=
  ["id", "equipmentCategory", "partName", "partCode", "currentStock",
   "minRequired", "maxThreshold", "inProcess", "unitCost", "supplier",
   "lastUpdated", "status", "stockLevel", "totalValue"]

/-- Lexicographic code-unit comparison of char lists — JS `<` on strings
(UTF-16 code units; identical to code points on the BMP data the system
holds). -/
def charsLt : List Char → List Char → Bool
  | [], [] => false
  | [], _ :: _ => true
  | _ :: _, [] => false
  | c :: cs, d :: ds => if c.toNat < d.toNat then true
    else if d.toNat < c.toNat then false
    else charsLt cs ds

/-- JS `a < b` on the values dynamic field access can produce.  Two
strings compare lexicographically by code unit; two numbers numerically;
`undefined` (and, vacuously, mixed-type pairs, which cannot arise between
two records of the fixed canonical shape) makes every relational
comparison false, as JS relational operators return `false` on `NaN`
operands. -/
def jsLtV : SortVal → SortVal → Bool
  | .vstr a, .vstr b => charsLt a.data b.data
  | .vnum a, .vnum b => decide (a < b)
  | _, _ => false

/-- The sort comparator of server.js lines 154–158:
```
if (a[sortField] < b[sortField]) return -1 * sortOrder;
if (a[sortField] > b[sortField]) return 1 * sortOrder;
return 0;
```
(`a > b` is `b < a` on these values). -/
def backendCmp (sortField : String) (sortOrder : Int) (a b : Record) : Int :=
  if jsLtV (getField a sortField) (getField b sortField) then -1 * sortOrder
  else if jsLtV (getField b sortField) (getField a sortField) then 1 * sortOrder
  else 0

/-- `Array.prototype.sort(cmp)` — a stable sort driven by the comparator
(stability is required by ES2019): an element goes before another exactly
when the comparator says it must (`cmp ≤ 0` keeps original order on
ties). -/
def jsSortBy {α : Type} (cmp : α → α → Int) (l : List α) : List α :=
  l.insertionSort (fun a b => cmp a b ≤ 0)

/-- The sort step of the endpoint (server.js lines 150–159):
`sortOrder` is `-1` when the `sortOrder` query parameter equals `"desc"`,
else `1`. -/
def sortRecords (sortField : String) (sortOrderParam : Option String)
    (l : List Record) : List Record :=
  jsSortBy (backendCmp sortField (if sortOrderParam = some "desc" then -1 else 1)) l

/-- JS truthiness of a query-string parameter: absent and empty are falsy. -/
def qTruthy : Option String → Bool
  | none => false
  | some s => s ≠ ""

/-- Case-insensitive substring test
`item.partName.toLowerCase().includes(searchTerm)`:
`leadsWith n h` is "`n` is a leading run of `h`", `hasSub h n` is
"`n` occurs somewhere in `h`". -/
def leadsWith : List Char → List Char → Bool
  | [], _ => true
  | _ :: _, [] => false
  | c :: cs, d :: ds => c = d && leadsWith cs ds

def hasSub : List Char → List Char → Bool
  | [], n => n.isEmpty
  | c :: t, n => leadsWith n (c :: t) || hasSub t n

def jsIncludes (hay needle : String) : Bool := hasSub hay.data needle.data

/-- `toLowerCase()` on the ASCII data the system holds: map each
uppercase letter to its lowercase form. -/
def charLower (c : Char) : Char :=
  if 'A' ≤ c ∧ c ≤ 'Z' then Char.ofNat (c.toNat + 32) else c

def strLower (s : String) : String := ⟨s.data.map charLower⟩

/-- The query parameters of `GET /api/spare-parts`, all raw query strings. -/
structure QueryParams where
  equipment : Option String := none
  stockLevel : Option String := none
  status : Option String := none
  search : Option String := none
  sortBy : Option String := none
  sortOrder : Option String := none
  page : Option String := none
  limit : Option String := none
deriving DecidableEq, Repr

/-- The filter-and-sort half of the endpoint (server.js lines 117–159):
copy the snapshot, filter by equipment, stock level, status, then by the
lowercased search term against part name or part code, then sort when a
`sortBy` field is supplied. -/
def filterSortStep (data : List Record) (q : QueryParams) : List Record :=
  let f0 := data
  let f1 := match q.equipment with
    | some s => if s ≠ "" then f0.filter (fun r => r.equipmentCategory = s) else f0
    | none => f0
  let f2 := match q.stockLevel with
    | some s => if s ≠ "" then f1.filter (fun r => r.stockLevel.toStr = s) else f1
    | none => f1
  let f3 := match q.status with
    | some s => if s ≠ "" then f2.filter (fun r => r.status = s) else f2
    | none => f2
  let f4 := match q.search with
    | some s => if s ≠ "" then
        f3.filter (fun r => jsIncludes (strLower r.partName) (strLower s) ||
          jsIncludes (strLower r.partCode) (strLower s))
      else f3
    | none => f3
  match q.sortBy with
  | some f => if f ≠ "" then sortRecords f q.sortOrder f4 else f4
  | none => f4

/-- `Array.prototype.slice(start, end)` with JS index semantics: a
negative index counts from the end of the array, indices are clamped to
`[0, length]`, and the slice is the (possibly empty) range between them. -/
def jsSlice {α : Type} (l : List α) (start endI : Int) : List α :=
  let len : Int := l.length
  let s := if start < 0 then max (len + start) 0 else min start len
  let e := if endI < 0 then max (len + endI) 0 else min endI len
  (l.drop s.toNat).take (e - s).toNat

/-- `parseInt(req.query.page) || 1` (and the same for `limit` with 50):
an absent parameter is `parseInt(undefined) = NaN`, which is falsy, as is
a parsed `0`. -/
def pageParam (o : Option String) (d : Int) : Int :=
  jsNumOr d (o.bind jsParseIntStr)

/-- The response of `GET /api/spare-parts` (server.js lines 169–176),
minus the echoed `lastSync` timestamp. -/
structure QueryResult where
  data : List Record
  total : Nat
  page : Int
  limit : Int
  totalPages : Int
deriving DecidableEq, Repr

/-- The whole endpoint body (server.js lines 115–181): filter, sort, then
paginate with `startIndex = (page-1)*limit`, `endIndex = page*limit`,
`totalPages = Math.ceil(filtered.length / limit)` (exact float division
of the modelled magnitudes, then ceiling). -/
def querySpareParts (data : List Record) (q : QueryParams) : QueryResult :=
  let filteredData := filterSortStep data q
  let page := pageParam q.page 1
  let limit := pageParam q.limit 50
  let startIndex := (page - 1) * limit
  let endIndex := page * limit
  { data := jsSlice filteredData startIndex endIndex
    total := filteredData.length
    page := page
    limit := limit
    totalPages := ⌈(filteredData.length : ℚ) / (limit : ℚ)⌉ }

/-! ### Pagination (C5, C10) -/

/-- C5: pagination is applied after filtering and sorting.  When the
filtered-and-sorted result has 120 records, `page=3, limit=50` returns
exactly records 101–120 (20 records), `total = 120`, `totalPages = 3`;
and any page strictly beyond `totalPages` (with a positive limit) yields
an empty page while `total` still equals the full filtered count. -/
theorem querySpareParts_pagination :
    (∀ (data : List Record) (q : QueryParams),
      q.page = some "3" → q.limit = some "50" →
      (filterSortStep data q).length = 120 →
      (querySpareParts data q).data = (filterSortStep data q).drop 100 ∧
      (querySpareParts data q).data.length = 20 ∧
      (querySpareParts data q).total = 120 ∧
      (querySpareParts data q).totalPages = 3) ∧
    (∀ (data : List Record) (q : QueryParams),
      0 < pageParam q.limit 50 →
      (querySpareParts data q).totalPages < pageParam q.page 1 →
      (querySpareParts data q).data = [] ∧
      (querySpareParts data q).total = (filterSortStep data q).length) := by
  constructor
  · intro data q hp hl hlen
    have hpage : pageParam q.page 1 = 3 := by rw [hp]; rfl
    have hlimit : pageParam q.limit 50 = 50 := by rw [hl]; rfl
    have hdata : (querySpareParts data q).data =
        ((filterSortStep data q).drop 100).take 20 := by
      simp only [querySpareParts, jsSlice, hpage, hlimit, hlen]
      norm_num
      rfl
    have hlen' : ((filterSortStep data q).drop 100).length = 20 := by
      rw [List.length_drop, hlen]
    refine ⟨?_, ?_, ?_, ?_⟩
    · rw [hdata, List.take_of_length_le (le_of_eq hlen')]
    · rw [hdata, List.take_of_length_le (le_of_eq hlen'), hlen']
    · simp only [querySpareParts, hlen]
    · show ⌈(((filterSortStep data q).length : ℚ)) / ((pageParam q.limit 50 : Int) : ℚ)⌉ = 3
      rw [hlen, hlimit]
      rw [Int.ceil_eq_iff]
      constructor <;> norm_num
  · intro data q hlim hover
    set L := pageParam q.limit 50 with hL
    set P := pageParam q.page 1 with hP
    set len := (filterSortStep data q).length with hlen
    have htp : (querySpareParts data q).totalPages = ⌈(len : ℚ) / (L : ℚ)⌉ := rfl
    rw [htp] at hover
    -- the filtered length is at most totalPages * limit, hence at most (P-1)*L
    have hceil : (len : Int) ≤ ⌈(len : ℚ) / (L : ℚ)⌉ * L := by
      have h1 : ((len : Int) : ℚ) / (L : ℚ) ≤ (⌈(len : ℚ) / (L : ℚ)⌉ : ℚ) := by
        exact_mod_cast Int.le_ceil ((len : ℚ) / (L : ℚ))
      have hLq : (0 : ℚ) < (L : ℚ) := by exact_mod_cast hlim
      rw [div_le_iff₀ hLq] at h1
      exact_mod_cast h1
    have hPL : (len : Int) ≤ (P - 1) * L := by
      calc (len : Int) ≤ ⌈(len : ℚ) / (L : ℚ)⌉ * L := hceil
        _ ≤ (P - 1) * L := by
          apply mul_le_mul_of_nonneg_right _ (le_of_lt hlim)
          omega
    have hstart : ¬ ((P - 1) * L < 0) := by
      intro hc
      have : (0 : Int) ≤ len := Int.natCast_nonneg len
      omega
    have hendI : ¬ (P * L < 0) := by
      have : (P - 1) * L ≤ P * L := by
        apply mul_le_mul_of_nonneg_right _ (le_of_lt hlim)
        omega
      have : (0 : Int) ≤ len := Int.natCast_nonneg len
      omega
    constructor
    · show jsSlice (filterSortStep data q) ((P - 1) * L) (P * L) = []
      have hPL' : (len : Int) ≤ P * L := by
        calc (len : Int) ≤ (P - 1) * L := hPL
          _ ≤ P * L := by
            apply mul_le_mul_of_nonneg_right _ (le_of_lt hlim)
            omega
      simp only [jsSlice, ← hlen]
      rw [if_neg hstart, if_neg hendI, min_eq_right hPL, min_eq_right hPL']
      simp
    · rfl

/-- Witness data: 120 distinct records obtained by normalizing rows whose
stock counts range over 0–119. -/
def mkDemoRec (n : Nat) : Record :=
  processItem { Part_Code := some (Nat.repr n), Current_Stock := .vn (n : ℚ) }
    "2024-01-01" "tok"

def demoData : List Record := (List.range 120).map mkDemoRec

def demoQ : QueryParams := { page := some "3", limit := some "50" }

def demoQbeyond : QueryParams := { page := some "99", limit := some "50" }

/-- Witness for `querySpareParts_pagination` on a concrete snapshot of
120 records. -/
theorem querySpareParts_pagination_witness :
    ((querySpareParts demoData demoQ).data = (filterSortStep demoData demoQ).drop 100 ∧
      (querySpareParts demoData demoQ).data.length = 20 ∧
      (querySpareParts demoData demoQ).total = 120 ∧
      (querySpareParts demoData demoQ).totalPages = 3) ∧
    (0 < pageParam demoQbeyond.limit 50 ∧
      (querySpareParts demoData demoQbeyond).totalPages < pageParam demoQbeyond.page 1 ∧
      (querySpareParts demoData demoQbeyond).data = [] ∧
      (querySpareParts demoData demoQbeyond).total =
        (filterSortStep demoData demoQbeyond).length) := by
  have hlen : (filterSortStep demoData demoQ).length = 120 := by
    simp [filterSortStep, demoData, demoQ]
  have h1 := querySpareParts_pagination.1 demoData demoQ rfl rfl hlen
  have hlim : 0 < pageParam demoQbeyond.limit 50 := by decide
  have hlenB : (filterSortStep demoData demoQbeyond).length = 120 := by
    simp [filterSortStep, demoData, demoQbeyond]
  have hover : (querySpareParts demoData demoQbeyond).totalPages <
      pageParam demoQbeyond.page 1 := by
    have h99 : pageParam demoQbeyond.page 1 = 99 := by decide
    have htp : (querySpareParts demoData demoQbeyond).totalPages =
        ⌈((filterSortStep demoData demoQbeyond).length : ℚ) /
          ((pageParam demoQbeyond.limit 50 : Int) : ℚ)⌉ := rfl
    have h50 : pageParam demoQbeyond.limit 50 = 50 := by decide
    rw [htp, hlenB, h50, h99]
    have h3 : ⌈(((120 : Nat) : ℚ)) / (((50 : Int) : Int) : ℚ)⌉ = 3 := by
      rw [Int.ceil_eq_iff]
      constructor <;> norm_num
    rw [h3]
    norm_num
  have h2 := querySpareParts_pagination.2 demoData demoQbeyond hlim hover
  exact ⟨h1, hlim, hover, h2.1, h2.2⟩

/-- C10: `page=0` and any non-numeric page fall back to page 1 (`0` and
`NaN` are falsy in `parseInt(req.query.page) || 1`); a negative page is
accepted and its slice indices are interpreted by JS relative to the end
of the array, so `page=-1, limit=50` over 120 filtered records returns
records 21–70 — a non-empty page, not an empty one and not an error. -/
theorem querySpareParts_page_edge_cases :
    pageParam (some "0") 1 = 1 ∧
    pageParam none 1 = 1 ∧
    (∀ s, jsParseIntStr s = none → pageParam (some s) 1 = 1) ∧
    (∀ (data : List Record) (q : QueryParams),
      q.page = some "-1" → q.limit = some "50" →
      (filterSortStep data q).length = 120 →
      (querySpareParts data q).data = ((filterSortStep data q).drop 20).take 50 ∧
      (querySpareParts data q).data.length = 50 ∧
      (querySpareParts data q).data ≠ []) := by
  refine ⟨by decide, by decide, ?_, ?_⟩
  · intro s h
    simp [pageParam, h, jsNumOr]
  · intro data q hp hl hlen
    have hpage : pageParam q.page 1 = -1 := by rw [hp]; rfl
    have hlimit : pageParam q.limit 50 = 50 := by rw [hl]; rfl
    have hdata : (querySpareParts data q).data =
        ((filterSortStep data q).drop 20).take 50 := by
      simp only [querySpareParts, jsSlice, hpage, hlimit, hlen]
      norm_num
      rfl
    have hlen' : (((filterSortStep data q).drop 20).take 50).length = 50 := by
      rw [List.length_take, List.length_drop, hlen]
      norm_num
    refine ⟨hdata, by rw [hdata, hlen'], ?_⟩
    rw [hdata, ← List.length_pos_iff_ne_nil, hlen']
    norm_num

/-- Witness for `querySpareParts_page_edge_cases` on the concrete
120-record snapshot, with `page=-1`. -/
def demoQneg : QueryParams := { page := some "-1", limit := some "50" }

theorem querySpareParts_page_edge_cases_witness :
    jsParseIntStr "abc" = none ∧ pageParam (some "abc") 1 = 1 ∧
    ((querySpareParts demoData demoQneg).data =
        ((filterSortStep demoData demoQneg).drop 20).take 50 ∧
      (querySpareParts demoData demoQneg).data.length = 50 ∧
      (querySpareParts demoData demoQneg).data ≠ []) := by
  have hlen : (filterSortStep demoData demoQneg).length = 120 := by
    simp [filterSortStep, demoData, demoQneg]
  exact ⟨by decide, querySpareParts_page_edge_cases.2.2.1 "abc" (by decide),
    querySpareParts_page_edge_cases.2.2.2 demoData demoQneg rfl rfl hlen⟩

/-! ### Sorting on an unknown field (C8) -/

/-- Dynamic access to a field name that is not on the record gives
`undefined`. -/
theorem getField_unknown (f : String) (hf : f ∉ knownFields) (r : Record) :
    getField r f = .vundefined := by
  simp only [knownFields, List.mem_cons, List.mem_singleton, not_or] at hf
  obtain ⟨h1, h2, h3, h4, h5, h6, h7, h8, h9, h10, h11, h12, h13, h14⟩ := hf
  simp [getField, h1, h2, h3, h4, h5, h6, h7, h8, h9, h10, h11, h12, h13, h14]

/-- Inserting into a sorted list under an everywhere-true relation keeps
the element in front. -/
theorem orderedInsert_of_total {α : Type} (r : α → α → Prop) [DecidableRel r]
    (h : ∀ a b, r a b) (a : α) (l : List α) : l.orderedInsert r a = a :: l := by
  cases l with
  | nil => rfl
  | cons b t => simp [List.orderedInsert, h a b]

/-- A stable sort under an everywhere-true relation is the identity. -/
theorem insertionSort_of_total {α : Type} (r : α → α → Prop) [DecidableRel r]
    (h : ∀ a b, r a b) (l : List α) : l.insertionSort r = l := by
  induction l with
  | nil => rfl
  | cons a t ih => rw [List.insertionSort, ih, orderedInsert_of_total r h]

/-- C8: sorting on a field name that does not exist on the records never
raises an error: the comparator degrades to `undefined < undefined`,
which is false both ways, so every pair compares equal, the stable sort
is the identity, and the query behaves exactly as if no sort had been
requested — the filtered records come back in their original relative
order with the correct total. -/
theorem querySpareParts_unknown_sort_field :
    (∀ (l : List Record) (f : String) (ord : Option String),
      f ∉ knownFields → sortRecords f ord l = l) ∧
    (∀ (data : List Record) (q : QueryParams) (f : String),
      q.sortBy = some f → f ∉ knownFields →
      filterSortStep data q = filterSortStep data { q with sortBy := none } ∧
      querySpareParts data q = querySpareParts data { q with sortBy := none }) := by
  have hsort : ∀ (l : List Record) (f : String) (ord : Option String),
      f ∉ knownFields → sortRecords f ord l = l := by
    intro l f ord hf
    unfold sortRecords jsSortBy
    apply insertionSort_of_total
    intro a b
    simp [backendCmp, getField_unknown f hf, jsLtV]
  refine ⟨hsort, ?_⟩
  intro data q f hq hf
  have hfs : filterSortStep data q = filterSortStep data { q with sortBy := none } := by
    simp only [filterSortStep, hq]
    split_ifs with h
    · rw [hsort _ f q.sortOrder hf]
    · rfl
  refine ⟨hfs, ?_⟩
  simp only [querySpareParts, hfs]

/-- Witness for `querySpareParts_unknown_sort_field` at the field name
`"bogus"` on a concrete two-record snapshot. -/
def demoQbogus : QueryParams := { sortBy := some "bogus" }

theorem querySpareParts_unknown_sort_field_witness :
    ("bogus" ∉ knownFields) ∧
    sortRecords "bogus" none [mkDemoRec 1, mkDemoRec 0] = [mkDemoRec 1, mkDemoRec 0] ∧
    querySpareParts [mkDemoRec 1, mkDemoRec 0] demoQbogus =
      querySpareParts [mkDemoRec 1, mkDemoRec 0] { demoQbogus with sortBy := none } := by
  have hb : ("bogus" : String) ∉ knownFields := by decide
  exact ⟨hb,
    querySpareParts_unknown_sort_field.1 [mkDemoRec 1, mkDemoRec 0] "bogus" none hb,
    (querySpareParts_unknown_sort_field.2 [mkDemoRec 1, mkDemoRec 0] demoQbogus "bogus"
      rfl hb).2⟩

/-! ### Case sensitivity of string sorting (C7) -/

/-- The comparator of the frontend helper `dataUtils.filterSpareParts`
(apiService.jsx lines 215–228):
```
let aVal = a[sortField]; let bVal = b[sortField];
if (typeof aVal === 'string') { aVal = aVal.toLowerCase(); bVal = bVal.toLowerCase(); }
if (aVal < bVal) return -1 * sortOrder;
if (aVal > bVal) return 1 * sortOrder;
return 0;
```
When the left value is a string but the right one is not,
`bVal.toLowerCase()` throws, so the result is `none`; between records of
the fixed canonical shape that case never arises. -/
def frontendCmpVal (sortOrder : Int) (a b : SortVal) : Option Int :=
  match a with
  | .vstr sa =>
    match b with
    | .vstr sb =>
      some (if charsLt (strLower sa).data (strLower sb).data then -1 * sortOrder
        else if charsLt (strLower sb).data (strLower sa).data then 1 * sortOrder
        else 0)
    | _ => none
  | _ =>
    some (if jsLtV a b then -1 * sortOrder
      else if jsLtV b a then 1 * sortOrder
      else 0)

/-- Two helper records differing only in the case pattern of their part
names. -/
def recApple : Record := processItem { Part_Name := some "apple", Part_Code := some "A1" }
  "2024-01-01" "tok"

def recZebra : Record := processItem { Part_Name := some "Zebra", Part_Code := some "Z1" }
  "2024-01-01" "tok"

/-- C7 counterexample: the backend query engine compares sort keys with
raw JS `<`/`>` — no lowercasing — so sorting `partName` ascending puts
`"Zebra"` (code unit 90) before `"apple"` (code unit 97): the snapshot
`[apple, Zebra]` sorts to `[Zebra, apple]`, contradicting the claim that
the query engine never orders `"Zebra"` before `"apple"`. -/
theorem backend_sort_orders_Zebra_before_apple :
    recApple.partName = "apple" ∧ recZebra.partName = "Zebra" ∧
    sortRecords "partName" none [recApple, recZebra] = [recZebra, recApple] := by
  refine ⟨by decide, by decide, ?_⟩
  have hcmp : backendCmp "partName" 1 recApple recZebra = 1 := by decide
  have hr : ¬ (backendCmp "partName" 1 recApple recZebra ≤ 0) := by omega
  simp only [sortRecords, jsSortBy, List.insertionSort, List.orderedInsert]
  simp only [show (if (none : Option String) = some "desc" then (-1 : Int) else 1) = 1
    from rfl]
  rw [if_neg hr]

/-- C7 amended: only the frontend helper `filterSpareParts` compares
string-typed sort keys case-insensitively (two keys that agree up to
letter case compare as equal); the backend `/api/spare-parts` sort is
case-sensitive by code unit, so there `"Zebra" < "apple"` and ascending
order puts any record named `"Zebra"` before any record named
`"apple"`. -/
theorem sort_case_sensitivity :
    (∀ (ord : Int) (s t : String), strLower s = strLower t →
      frontendCmpVal ord (.vstr s) (.vstr t) = some 0) ∧
    (∀ a b : Record, a.partName = "apple" → b.partName = "Zebra" →
      sortRecords "partName" none [a, b] = [b, a]) := by
  constructor
  · intro ord s t h
    have hlt : ∀ l : List Char, charsLt l l = false := by
      intro l
      induction l with
      | nil => rfl
      | cons c cs ih => simp [charsLt, ih]
    simp [frontendCmpVal, h, hlt]
  · intro a b ha hb
    have hga : getField a "partName" = .vstr "apple" := by rw [← ha]; rfl
    have hgb : getField b "partName" = .vstr "Zebra" := by rw [← hb]; rfl
    have hcmp : backendCmp "partName" 1 a b = 1 := by
      simp only [backendCmp, hga, hgb]
      decide
    have hr : ¬ (backendCmp "partName" 1 a b ≤ 0) := by omega
    simp only [sortRecords, jsSortBy, List.insertionSort, List.orderedInsert]
    simp only [show (if (none : Option String) = some "desc" then (-1 : Int) else 1) = 1
      from rfl]
    rw [if_neg hr]

/-- Witness for `sort_case_sensitivity` at concrete strings and
records. -/
theorem sort_case_sensitivity_witness :
    strLower "Apple" = strLower "apple" ∧
    frontendCmpVal 1 (.vstr "Apple") (.vstr "apple") = some 0 ∧
    sortRecords "partName" none [recApple, recZebra] = [recZebra, recApple] :=
  ⟨by decide, sort_case_sensitivity.1 1 "Apple" "apple" (by decide),
    sort_case_sensitivity.2 recApple recZebra (by decide) (by decide)⟩

/-! ### Dataset loader (C9) — readExcelData, server.js lines 38–68 -/

/-- What the external read can yield: the file is absent
(`fs.existsSync` false), the read throws (caught at line 64), or a
workbook — a list of named sub-tables, each already converted to raw
rows, in workbook order (`SheetNames` order, names distinct in a real
workbook; `Sheets[name]` is association-list lookup). -/
inductive ExcelSource where
  | absent
  | readError
  | workbook (sheets : List (String × List RawRow))

/-- server.js lines 38–68: on a missing file or a throwing read return
`[]`; otherwise prefer the sheet named `"Spare_Parts_Inventory"`; if it
is missing take the first sheet name (`SheetNames[0]`; `undefined` — no
sheets at all — and the empty string are both falsy and yield `[]`) and
process that sheet's rows. -/
def readExcelData (src : ExcelSource) (today : String) (rand : Nat → String) :
    List Record :=
  match src with
  | .absent => []
  | .readError => []
  | .workbook sheets =>
    match sheets.lookup "Spare_Parts_Inventory" with
    | some rows => processSparePartsData rows today rand
    | none =>
      match sheets with
      | [] => []
      | (firstName, rows) :: _ =>
        if firstName = "" then []
        else processSparePartsData rows today rand

/-- C9: the loader never fails its caller.  An absent source, a throwing
read, and a workbook with no sub-tables all produce the empty snapshot;
when the fixed name `"Spare_Parts_Inventory"` is present its rows are
processed, otherwise the first sub-table's rows are (the side condition
`name ≠ ""` holds of every real workbook, where sheet names are
nonempty); and processing normalizes every row independently in source
order, dropping none: the output has one record per row and the `i`-th
record is the normalization of the `i`-th row. -/
theorem readExcelData_total_and_ordered (today : String) (rand : Nat → String) :
    readExcelData .absent today rand = [] ∧
    readExcelData .readError today rand = [] ∧
    readExcelData (.workbook []) today rand = [] ∧
    (∀ (sheets : List (String × List RawRow)) (rows : List RawRow),
      sheets.lookup "Spare_Parts_Inventory" = some rows →
      readExcelData (.workbook sheets) today rand =
        processSparePartsData rows today rand) ∧
    (∀ (name : String) (rows : List RawRow) (rest : List (String × List RawRow)),
      ((name, rows) :: rest).lookup "Spare_Parts_Inventory" = none → name ≠ "" →
      readExcelData (.workbook ((name, rows) :: rest)) today rand =
        processSparePartsData rows today rand) ∧
    (∀ rows : List RawRow,
      (processSparePartsData rows today rand).length = rows.length) ∧
    (∀ (rows : List RawRow) (i : Nat) (h : i < rows.length)
      (h2 : i < (processSparePartsData rows today rand).length),
      (processSparePartsData rows today rand).get ⟨i, h2⟩ =
        processItem (rows.get ⟨i, h⟩) today (rand i)) := by
  refine ⟨rfl, rfl, rfl, ?_, ?_, ?_, ?_⟩
  · intro sheets rows h
    simp [readExcelData, h]
  · intro name rows rest h hne
    simp [readExcelData, h, hne]
  · intro rows
    simp [processSparePartsData]
  · intro rows i h h2
    simp [processSparePartsData, List.get_mapIdx]

/-- Witness for `readExcelData_total_and_ordered` on a concrete
workbook. -/
def demoRow : RawRow := { Part_Code := some "A1", Current_Stock := .vn 5 }

def demoSheets : List (String × List RawRow) :=
  [("Other_Sheet", [demoRow]), ("Spare_Parts_Inventory", [demoRow, demoRow])]

theorem readExcelData_total_and_ordered_witness :
    (demoSheets.lookup "Spare_Parts_Inventory" = some [demoRow, demoRow] ∧
      readExcelData (.workbook demoSheets) "2024-01-01" (fun _ => "tok") =
        processSparePartsData [demoRow, demoRow] "2024-01-01" (fun _ => "tok")) ∧
    ((([("Only_Sheet", [demoRow])] : List (String × List RawRow)).lookup
        "Spare_Parts_Inventory" = none) ∧ ("Only_Sheet" : String) ≠ "" ∧
      readExcelData (.workbook [("Only_Sheet", [demoRow])]) "2024-01-01"
          (fun _ => "tok") =
        processSparePartsData [demoRow] "2024-01-01" (fun _ => "tok")) ∧
    (processSparePartsData [demoRow, demoRow] "2024-01-01"
        (fun _ => "tok")).length = 2 ∧
    (processSparePartsData [demoRow, demoRow] "2024-01-01"
        (fun _ => "tok")).get ⟨0, by decide⟩ =
      processItem demoRow "2024-01-01" "tok" := by
  have hl : demoSheets.lookup "Spare_Parts_Inventory" = some [demoRow, demoRow] := by
    decide
  have hl2 : (([("Only_Sheet", [demoRow])] : List (String × List RawRow)).lookup
      "Spare_Parts_Inventory") = none := by decide
  refine ⟨⟨hl, (readExcelData_total_and_ordered "2024-01-01" (fun _ => "tok")).2.2.2.1
      demoSheets [demoRow, demoRow] hl⟩,
    ⟨hl2, by decide, (readExcelData_total_and_ordered "2024-01-01"
      (fun _ => "tok")).2.2.2.2.1 "Only_Sheet" [demoRow] [] hl2 (by decide)⟩,
    (readExcelData_total_and_ordered "2024-01-01" (fun _ => "tok")).2.2.2.2.2.1
      [demoRow, demoRow],
    (readExcelData_total_and_ordered "2024-01-01"
      (fun _ => "tok")).2.2.2.2.2.2 [demoRow, demoRow] 0 (by decide) (by decide)⟩

/-! ### Aggregator (C1) — GET /api/dashboard/stats, server.js lines 184–231 -/

def digitsToNat (l : List Char) : Nat :=
  l.foldl (fun a c => a * 10 + (c.toNat - 48)) 0

/-- Split a character list on `'-'`. -/
def splitDash : List Char → List (List Char)
  | [] => [[]]
  | c :: t =>
    if c = '-' then [] :: splitDash t
    else
      match splitDash t with
      | [] => [[c]]
      | g :: gs => (c :: g) :: gs

/-- `new Date(s)` on the ISO calendar dates the system stores in
`lastUpdated` (`toISOString().split('T')[0]`), reduced to an
order-isomorphic integer `y*10000 + m*100 + d`; any other shape is an
invalid date (`NaN`), modelled as `none`. -/
def isoDateVal (s : String) : Option Int :=
  match splitDash s.data with
  | [y, m, d] =>
    if y ≠ [] ∧ m ≠ [] ∧ d ≠ [] ∧
        y.all Char.isDigit ∧ m.all Char.isDigit ∧ d.all Char.isDigit then
      some ((digitsToNat y * 10000 + digitsToNat m * 100 + digitsToNat d : Nat) : Int)
    else none
  | _ => none

/-- The `recentActivity` comparator (server.js line 200):
`(a, b) => new Date(b.lastUpdated) - new Date(a.lastUpdated)`; a
subtraction involving an invalid date is `NaN`, which the sort treats as
`+0`. -/
def recentCmp (a b : Record) : Int :=
  match isoDateVal b.lastUpdated, isoDateVal a.lastUpdated with
  | some db, some da => db - da
  | _, _ => 0

/-- Per-category entry of `equipmentBreakdown`. -/
structure EquipStats where
  totalParts : Nat := 0
  totalValue : ℚ := 0
  criticalParts : Nat := 0
deriving DecidableEq, Repr

/-- `stockLevelBreakdown`, all four keys always present. -/
structure LevelCounts where
  OUT_OF_STOCK : Nat := 0
  LOW_STOCK : Nat := 0
  MEDIUM_STOCK : Nat := 0
  HIGH_STOCK : Nat := 0
deriving DecidableEq, Repr

def bumpLevel (c : LevelCounts) : StockLevel → LevelCounts
  | .OUT_OF_STOCK => { c with OUT_OF_STOCK := c.OUT_OF_STOCK + 1 }
  | .LOW_STOCK => { c with LOW_STOCK := c.LOW_STOCK + 1 }
  | .MEDIUM_STOCK => { c with MEDIUM_STOCK := c.MEDIUM_STOCK + 1 }
  | .HIGH_STOCK => { c with HIGH_STOCK := c.HIGH_STOCK + 1 }

/-- One `forEach` step on `equipmentBreakdown` (server.js lines 206–220):
keys are created lazily on first encounter, in iteration order. -/
def bumpEquip (m : List (String × EquipStats)) (cat : String) (tv : ℚ)
    (crit : Bool) : List (String × EquipStats) :=
  match m with
  | [] =>
    [(cat,
      { totalParts := 1
        totalValue := tv
        criticalParts := if crit then 1 else 0 })]
  | (k, v) :: t =>
    if k = cat then
      (k,
        { totalParts := v.totalParts + 1
          totalValue := v.totalValue + tv
          criticalParts := v.criticalParts + if crit then 1 else 0 }) :: t
    else (k, v) :: bumpEquip t cat tv crit

/-- The dashboard statistics object (minus the echoed `lastSync`). -/
structure Stats where
  totalParts : Nat
  totalValue : ℚ
  outOfStock : Nat
  lowStock : Nat
  inProcess : Int
  equipmentBreakdown : List (String × EquipStats)
  stockLevelBreakdown : LevelCounts
  recentActivity : List Record
deriving DecidableEq, Repr

/-- The body of `GET /api/dashboard/stats` (server.js lines 184–231).
The object-literal fields evaluate top to bottom, so the scalar
totals/counts read the array before `recentActivity`'s
`sparePartsData.sort(...)` runs; that `.sort` is **in place** on the
module-level array (no copy is taken, unlike line 117), so the function
returns both the stats and the array the global now holds, and the
`forEach` that fills the breakdowns (lines 206–224) then iterates the
sorted array. -/
def dashboardStats (sparePartsData : List Record) : Stats × List Record :=
  let sorted := jsSortBy recentCmp sparePartsData
  let base : Stats :=
    { totalParts := sparePartsData.length
      totalValue := (sparePartsData.map Record.totalValue).sum
      outOfStock := (sparePartsData.filter
        (fun r => r.stockLevel = .OUT_OF_STOCK)).length
      lowStock := (sparePartsData.filter
        (fun r => r.stockLevel = .LOW_STOCK)).length
      inProcess := (sparePartsData.map Record.inProcess).sum
      equipmentBreakdown := []
      stockLevelBreakdown := {}
      recentActivity := sorted.take 10 }
  let final := sorted.foldl
    (fun st item =>
      { st with
        equipmentBreakdown := bumpEquip st.equipmentBreakdown
          item.equipmentCategory item.totalValue
          (decide (item.stockLevel = .OUT_OF_STOCK ∨ item.stockLevel = .LOW_STOCK))
        stockLevelBreakdown := bumpLevel st.stockLevelBreakdown item.stockLevel })
    base
  (final, sorted)

/-- Two records whose `lastUpdated` dates are in ascending order, so that
the descending `recentActivity` sort must swap them. -/
def recOlder : Record :=
  { id := "A1", equipmentCategory := "PCT", partName := "Older Part",
    partCode := "A1", currentStock := 1, minRequired := 1, maxThreshold := 0,
    inProcess := 0, unitCost := 0, supplier := "S",
    lastUpdated := "2024-01-01", status := "Active",
    stockLevel := .LOW_STOCK, totalValue := 0 }

def recNewer : Record :=
  { id := "B2", equipmentCategory := "PCT", partName := "Newer Part",
    partCode := "B2", currentStock := 1, minRequired := 1, maxThreshold := 0,
    inProcess := 0, unitCost := 0, supplier := "S",
    lastUpdated := "2024-01-02", status := "Active",
    stockLevel := .LOW_STOCK, totalValue := 0 }

/-- C1 fails on the code: computing the dashboard statistics is **not** a
pure read.  `recentActivity` is built with `sparePartsData.sort(...)`,
which sorts the module-level array in place; on the snapshot
`[recOlder, recNewer]` (ascending dates) the globally visible record
sequence afterwards is `[recNewer, recOlder]` — reordered — while the
claim (and §4.5 of the spec, "No side effects; read-only over the
snapshot") requires it unchanged.  The filtered/sorted copy taken at
line 117 (`[...sparePartsData]`) shows the intended idiom; line 199 omits
the copy. -/
theorem dashboardStats_reorders_snapshot :
    (dashboardStats [recOlder, recNewer]).2 = [recNewer, recOlder] ∧
    (dashboardStats [recOlder, recNewer]).2 ≠ [recOlder, recNewer] ∧
    (dashboardStats [recOlder, recNewer]).1.recentActivity =
      [recNewer, recOlder] := by
  refine ⟨by decide, by decide, by decide⟩
